import Mathlib

/-!
Shallow embedding of `bevy_mod_reaction` (src/lib.rs), a reactive-execution
layer over a Bevy entity-component store, together with proofs about the
embedded operations.

Conventions of the embedding:
* Machine state that Rust passes as `&mut` is threaded explicitly:
  an operation `fn f(&mut self, ...) -> R` becomes `f : σ → ... → R × σ`.
* `unwrap` on an absent value (a Rust panic) is modelled by returning
  `Option.none`, which propagates to the caller.
* The Bevy store is out of scope of the crate (an external collaborator);
  where an operation consults it we model exactly the facts the crate reads
  from it (per-row change flags, a resource change flag, a command queue).
* Trait dispatch (`ReactiveSystemParam`, `ReactiveSystem`) is rendered as
  records of functions, the standard type-class-free shallow rendering.
-/

set_option autoImplicit false

namespace BevyModReaction

variable {W σ V σ1 σ2 V1 V2 : Type}

/-! ### The component accessor `impl ReactiveQueryData<F> for &T` (lib.rs 30-58)

The store view is modelled as the list of rows visible to the two cached
queries of the accessor's `SystemState`: for each row we record whether
`Changed<T>` holds for it (did `T`'s data on that row change since this
state's last check), whether the user filter `F` matches it, and the `T`
data it carries (abstracted as a `Nat`). -/

structure Row where
  value : Nat
  changedT : Bool
  matchesF : Bool
deriving Repr, DecidableEq

/-- The rows returned by the cached `Query<(), (Changed<T>, F)>`:
rows matching the change condition AND the user filter. -/
def changedFilteredRows (rows : List Row) : List Row :=
  rows.filter (fun r => r.changedT && r.matchesF)

/-- The rows returned by the cached `Query<&T, F>`: rows matching the filter. -/
def filteredRows (rows : List Row) : List Row :=
  rows.filter (fun r => r.matchesF)

namespace ComponentAccessor

/-- `<&T as ReactiveQueryData<F>>::is_changed` (lib.rs 44-49):
`!state.get(&world).0.is_empty()`. -/
def is_changed (rows : List Row) : Bool :=
  !(changedFilteredRows rows).isEmpty

/-- `<&T as ReactiveQueryData<F>>::get` (lib.rs 51-57): returns the filtered
typed view (the data of every row matching `F`). -/
def get (rows : List Row) : List Nat :=
  (filteredRows rows).map Row.value

end ComponentAccessor

/-! ### The `Commands` and `Res<R>` parameters (lib.rs 73-116)

The deferred world, as consumed by these two instances, carries a resource
`R` (its value abstracted as a `Nat`) with the store's own changed flag for
it, and the deferred-command queue. -/

structure DWorld where
  resChanged : Bool
  resValue : Nat
  queue : List Nat
deriving Repr, DecidableEq

/-- A handle onto the store's deferred-command sink, as produced by
`world.commands()`. -/
structure CommandsHandle where
  pending : List Nat
deriving Repr, DecidableEq

/-- `DeferredWorld::commands` — the store capability the `Commands`
parameter's `get` calls into. -/
def DWorld.commands (w : DWorld) : CommandsHandle :=
  ⟨w.queue⟩

namespace CommandsParam

/-- `<Commands as ReactiveSystemParam>::init` (lib.rs 76-78): `let _ = world;`
— produces the empty state `()` and leaves the world untouched. -/
def init (w : DWorld) : Unit × DWorld :=
  ((), w)

/-- `<Commands as ReactiveSystemParam>::is_changed` (lib.rs 80-85):
ignores world and state, returns `false`. -/
def is_changed (w : DWorld) (s : Unit) : Bool :=
  let _ := w
  let _ := s
  false

/-- `<Commands as ReactiveSystemParam>::get` (lib.rs 87-94): `world.commands()`. -/
def get (w : DWorld) (s : Unit) : CommandsHandle :=
  let _ := s
  w.commands

end CommandsParam

namespace ResParam

/-- `<Res<R> as ReactiveSystemParam>::init` (lib.rs 100-102): `let _ = world;`. -/
def init (w : DWorld) : Unit × DWorld :=
  ((), w)

/-- `<Res<R> as ReactiveSystemParam>::is_changed` (lib.rs 104-107):
`world.resource_ref::<R>().is_changed()` — the store's changed flag for `R`. -/
def is_changed (w : DWorld) (s : Unit) : Bool :=
  let _ := s
  w.resChanged

/-- `<Res<R> as ReactiveSystemParam>::get` (lib.rs 109-115):
`world.resource_ref::<R>()` — a read-only view of the resource. -/
def get (w : DWorld) (s : Unit) : Nat :=
  let _ := s
  w.resValue

end ResParam

/-! ### Generic `ReactiveSystemParam` instances (lib.rs 118-193)

An arbitrary implementation of the `ReactiveSystemParam` trait over a world
type `W`, with associated state type `σ` and item (view) type `V`.
`is_changed` takes the state by `&mut` in Rust, so it is `W → σ → Bool × σ`;
`get` likewise returns a view together with the possibly-updated state.
The world handed to `is_changed` is a `DeferredWorld` the crate's instances
only read, so it is not threaded back. -/

structure ParamOps (W σ V : Type) where
  initImpl : W → σ
  isChangedImpl : W → σ → Bool × σ
  getImpl : W → σ → V × σ

/-- `<Query<D, F> as ReactiveSystemParam>` (lib.rs 118-142): every operation
forwards to the corresponding `ReactiveQueryData` operation of `D` with
filter `F`; the `State` associated type is literally
`<D as ReactiveQueryData<F>>::State`, so both sides share `σ`. -/
def queryParam (d : ParamOps W σ V) : ParamOps W σ V where
  initImpl := fun w => d.initImpl w
  isChangedImpl := fun w s => d.isChangedImpl w s
  getImpl := fun w s => d.getImpl w s

/-- `<(T1, T2) as ReactiveSystemParam>::init` (lib.rs 172-174):
`(T1::init(world), T2::init(world))`. -/
def tupleInit (p1 : ParamOps W σ1 V1) (p2 : ParamOps W σ2 V2) (w : W) :
    σ1 × σ2 :=
  (p1.initImpl w, p2.initImpl w)

/-- `<(T1, T2) as ReactiveSystemParam>::is_changed` (lib.rs 176-181):
`T1::is_changed(world.reborrow(), &mut state.0) || T2::is_changed(world, &mut state.1)`.
Rust's `||` evaluates its right operand only when the left one is `false`,
so the second member's check runs only in the `else` branch. -/
def tupleIsChanged (p1 : ParamOps W σ1 V1) (p2 : ParamOps W σ2 V2)
    (w : W) (s : σ1 × σ2) : Bool × (σ1 × σ2) :=
  let r1 := p1.isChangedImpl w s.1
  if r1.1 then
    (true, (r1.2, s.2))
  else
    let r2 := p2.isChangedImpl w s.2
    (r2.1, (r1.2, r2.2))

/-- `<(T1, T2) as ReactiveSystemParam>::get` (lib.rs 183-192): casts the one
mutable world handle to a raw pointer and hands the SAME world to both
members' `get`, passing each its own member state; returns the pair of
views. -/
def tupleGet (p1 : ParamOps W σ1 V1) (p2 : ParamOps W σ2 V2)
    (w : W) (s : σ1 × σ2) : (V1 × V2) × (σ1 × σ2) :=
  let r1 := p1.getImpl w s.1
  let r2 := p2.getImpl w s.2
  ((r1.1, r2.1), (r1.2, r2.2))

/-! ### `FunctionReactiveSystem` (lib.rs 256-287)

The struct holds the user function `f` and `state: Option<S>`; the
parameter-capability operations of `F::Param` are rendered as function
fields. `run` derives the parameter views via `F::Param::get` and invokes
`f` on them; its observable effect in the embedding is the updated
parameter state. `state.as_mut().unwrap()` panics when `state` is `None`;
the panic is modelled as `none`. -/

structure FunctionReactiveSystem (W σ : Type) where
  paramInit : W → σ
  paramIsChanged : W → σ → Bool × σ
  paramGetRun : W → Nat → σ → σ
  state : Option σ

/-- `Reaction::new` (lib.rs 312-325) boxes a `FunctionReactiveSystem` with
`state: None`. -/
def FunctionReactiveSystem.mk0 (pInit : W → σ) (pIsCh : W → σ → Bool × σ)
    (pRun : W → Nat → σ → σ) : FunctionReactiveSystem W σ :=
  ⟨pInit, pIsCh, pRun, none⟩

/-- `FunctionReactiveSystem::init` (lib.rs 272-274):
`self.state = Some(F::Param::init(world));`. -/
def FunctionReactiveSystem.initSys (w : W) (sys : FunctionReactiveSystem W σ) :
    FunctionReactiveSystem W σ :=
  { sys with state := some (sys.paramInit w) }

/-- `FunctionReactiveSystem::is_changed` (lib.rs 276-278):
`F::Param::is_changed(world, self.state.as_mut().unwrap())`; `none` models
the `unwrap` panic on an uninitialized system. -/
def FunctionReactiveSystem.isChangedSys (w : W)
    (sys : FunctionReactiveSystem W σ) :
    Option (Bool × FunctionReactiveSystem W σ) :=
  match sys.state with
  | none => none
  | some s =>
      let r := sys.paramIsChanged w s
      some (r.1, { sys with state := some r.2 })

/-- `FunctionReactiveSystem::run` (lib.rs 280-286): reborrows the world,
derives the parameter views with `F::Param::get(&mut world,
self.state.as_mut().unwrap())` and invokes `self.f`; `none` models the
`unwrap` panic on an uninitialized system. -/
def FunctionReactiveSystem.runSys (w : W) (e : Nat)
    (sys : FunctionReactiveSystem W σ) :
    Option (FunctionReactiveSystem W σ) :=
  match sys.state with
  | none => none
  | some s => some { sys with state := some (sys.paramGetRun w e s) }

/-! ### The `Reaction` component and the `react` driver (lib.rs 289-336)

A `Reaction` holds its type-erased system behind `Arc<Mutex<..>>`. The
driver `react` iterates the `(Entity, &Reaction)` query; for each pair it
acquires the lock with `.lock().unwrap()` — a panic when the mutex is
poisoned, modelled by the `poisoned` flag and a `none` result — then calls
`is_changed(world.reborrow())` and, only when that returns `true`,
`run((), world.reborrow(), entity)`. The dyn system is modelled as a record
of its two behaviours over its own state type `σ`; `run` may mutate the
world (user logic enqueues deferred commands), so it returns the world. -/

structure SysModel (W σ : Type) where
  isChangedImpl : W → σ → Bool × σ
  runImpl : W → Nat → σ → σ × W

structure Reaction (W σ : Type) where
  poisoned : Bool
  sys : SysModel W σ
  state : σ

/-- `react` (lib.rs 328-336), processing the query's `(Entity, &Reaction)`
pairs in order; returns the final per-reaction states and the final world,
or `none` when a `lock().unwrap()` panicked on a poisoned mutex. -/
def react (w : W) : List (Nat × Reaction W σ) → Option (List σ × W)
  | [] => some ([], w)
  | (e, r) :: rest =>
      if r.poisoned then
        none
      else
        let c := r.sys.isChangedImpl w r.state
        if c.1 then
          let ran := r.sys.runImpl w e c.2
          (react ran.2 rest).map (fun p => (ran.1 :: p.1, p.2))
        else
          (react w rest).map (fun p => (c.2 :: p.1, p.2))

/-! Instrumentation used to count, per reaction, how often the driver calls
`is_changed` and `run` during one sweep. A wrapped state carries the
original state plus the two call counters and the result of the most recent
`is_changed` call; the wrapped behaviours forward to the original ones and
only bump the bookkeeping, so a sweep over wrapped reactions computes
exactly the same states and world. -/

structure Counted (σ : Type) where
  base : σ
  checks : Nat
  runs : Nat
  lastCheck : Option Bool
deriving Repr, DecidableEq

def countCalls (s : SysModel W σ) : SysModel W (Counted σ) where
  isChangedImpl := fun w i =>
    let r := s.isChangedImpl w i.base
    (r.1, ⟨r.2, i.checks + 1, i.runs, some r.1⟩)
  runImpl := fun w e i =>
    let r := s.runImpl w e i.base
    (⟨r.1, i.checks, i.runs + 1, i.lastCheck⟩, r.2)

/-- Wraps every reaction of a sweep list with `countCalls`, zeroing the
counters. -/
def countSweep (l : List (Nat × Reaction W σ)) :
    List (Nat × Reaction W (Counted σ)) :=
  l.map (fun p => (p.1, ⟨p.2.poisoned, countCalls p.2.sys, ⟨p.2.state, 0, 0, none⟩⟩))

/-! ### Attachment lifecycle of one `Reaction` (lib.rs 294-309 with 272-287)

`impl Component for Reaction` registers an `on_insert` hook. The hook runs
synchronously while the insert commits and only ENQUEUES, through
`world.commands().add(..)`, a deferred closure; when the store later flushes
its command queue, the closure looks the `Reaction` up on the entity and
calls `init` on its (shared, locked) system, which sets the persistent
state from `None` to `Some` (lib.rs 272-274).

We track one attached reaction. Its persistent state is `Option Nat`
(`none` = Uninitialized, `some` = Ready, the inner `Nat` abstracting the
parameter state); `initCount` counts executions of the deferred `init`
closure; `queue` is the store's command queue holding the pending deferred
closures; `changed` abstracts whether the reaction's inputs currently
report a change during a sweep. A sweep is the `react` loop restricted to
this reaction: it calls `is_changed` (an `unwrap` panic — `none` — when
still Uninitialized) and, on change, `run`, which updates the inner
parameter state and never touches the `Option` layer nor calls `init`. -/

inductive HookCmd
  | initCmd
deriving Repr, DecidableEq

structure LifeWorld where
  attached : Bool
  state : Option Nat
  queue : List HookCmd
  initCount : Nat
  changed : Bool
deriving Repr, DecidableEq

/-- The `on_insert` hook firing as the `Reaction` component is inserted
(lib.rs 298-307): the attachment commits and one deferred init closure is
queued. -/
def attach (w : LifeWorld) : LifeWorld :=
  { w with attached := true, queue := w.queue ++ [HookCmd.initCmd] }

/-- Executing one queued closure (lib.rs 299-306): it queries the
`Reaction` on the entity (`unwrap` panics — `none` — if the entity no
longer carries it), locks it and calls `init`, installing the persistent
state. -/
def applyCmd (w : LifeWorld) : HookCmd → Option LifeWorld
  | HookCmd.initCmd =>
      if w.attached then
        some { w with state := some 0, initCount := w.initCount + 1 }
      else
        none

/-- The store flushing its command queue: every queued closure runs in
order and the queue empties. -/
def flushCmds (w : LifeWorld) : Option LifeWorld :=
  w.queue.foldlM applyCmd { w with queue := [] }

/-- One driver sweep over this single reaction (lib.rs 328-336 through
lib.rs 276-286): when attached, `is_changed` unwraps the persistent state
(`none` models the panic while Uninitialized) and on `true` the system
runs, updating the inner parameter state (modelled as a bump) and leaving
the `Option` layer `some`; `init` is never called here. -/
def sweepOnce (w : LifeWorld) : Option LifeWorld :=
  if w.attached then
    match w.state with
    | none => none
    | some s => if w.changed then some { w with state := some (s + 1) } else some w
  else
    some w

inductive LifeStep
  | flushStep
  | sweepStep
deriving Repr, DecidableEq

def execStep (w : LifeWorld) : LifeStep → Option LifeWorld
  | LifeStep.flushStep => flushCmds w
  | LifeStep.sweepStep => sweepOnce w

/-- Running an arbitrary interleaving of command flushes and driver sweeps
after the attachment. -/
def execSteps (w : LifeWorld) (steps : List LifeStep) : Option LifeWorld :=
  steps.foldlM execStep w

/-- The world before the `Reaction` component is inserted: not attached,
Uninitialized, nothing queued, `init` never run. -/
def preAttachWorld (changed : Bool) : LifeWorld :=
  ⟨false, none, [], 0, changed⟩

/-! ### Concrete instances used to evaluate the embedded operations -/

/-- A parameter whose change check always reports `true` and keeps no
state. -/
def alwaysChangedParam : ParamOps Unit Unit Unit where
  initImpl := fun _ => ()
  isChangedImpl := fun _ _ => (true, ())
  getImpl := fun _ s => ((), s)

/-- A parameter that counts, in its own persistent state, how many times
its change check has executed (the internal bookkeeping a member's
`is_changed` performs on its `SystemState`); it never reports a change. -/
def countChecksParam : ParamOps Unit Nat Unit where
  initImpl := fun _ => 0
  isChangedImpl := fun _ n => (false, n + 1)
  getImpl := fun _ n => ((), n)

/-- A reactive system whose inputs always report changed; its run bumps its
state. -/
def sysAlwaysChanged : SysModel Unit Nat where
  isChangedImpl := fun _ s => (true, s)
  runImpl := fun _ _ s => (s + 1, ())

/-- A reactive system whose inputs never report changed; its run would bump
its state. -/
def sysNeverChanged : SysModel Unit Nat where
  isChangedImpl := fun _ s => (false, s)
  runImpl := fun _ _ s => (s + 1, ())

/-- A sweep list with one changed and one unchanged reaction, none
poisoned. -/
def demoSweep : List (Nat × Reaction Unit Nat) :=
  [(0, ⟨false, sysAlwaysChanged, 10⟩), (1, ⟨false, sysNeverChanged, 20⟩)]

/-- A sweep list whose second reaction's mutex is poisoned. -/
def poisonedSweep : List (Nat × Reaction Unit Nat) :=
  [(0, ⟨false, sysNeverChanged, 0⟩), (1, ⟨true, sysAlwaysChanged, 0⟩)]

/-- A post-attachment schedule: a command flush, then a sweep, then another
flush. -/
def demoSteps : List LifeStep :=
  [LifeStep.flushStep, LifeStep.sweepStep, LifeStep.flushStep]

/-- The world `demoSteps` produces from `attach (preAttachWorld true)`. -/
def demoFinal : LifeWorld :=
  ⟨true, some 1, [], 1, true⟩

/-! ### Lifecycle invariant -/

/-- After attachment the reaction is either Uninitialized with exactly the
one deferred init closure still queued, or Ready with the closure consumed
and `init` having run exactly once. -/
def LifeReady (w : LifeWorld) : Prop :=
  w.initCount = 1 ∧ w.state.isSome = true ∧ w.queue = []

def LifeFresh (w : LifeWorld) : Prop :=
  w.initCount = 0 ∧ w.state = none ∧ w.queue = [HookCmd.initCmd]

def LifeInv (w : LifeWorld) : Prop :=
  w.attached = true ∧ (LifeFresh w ∨ LifeReady w)

/-! ## Theorems -/

/-- Claim C4: for the component accessor `&T` with filter `F`, `is_changed`
returns `true` iff at least one row satisfies both the changed-since-last-
check condition on `T` and the user filter `F` — the change predicate and
the filter compose as a conjunction. -/
theorem component_is_changed_iff_exists_row (rows : List Row) :
    ComponentAccessor.is_changed rows = true ↔
      ∃ r ∈ rows, r.changedT = true ∧ r.matchesF = true := by
  simp [ComponentAccessor.is_changed, changedFilteredRows,
    List.isEmpty_eq_false_iff_exists_mem]

/-- Claim C5: the `Commands` parameter's `init` does no observable work and
produces the empty state, `is_changed` is `false` at every store state, and
`get` returns a handle onto the store's deferred-command sink
(`world.commands()`). -/
theorem commands_param_spec (w : DWorld) (s : Unit) :
    CommandsParam.init w = ((), w) ∧
    CommandsParam.is_changed w s = false ∧
    CommandsParam.get w s = w.commands :=
  ⟨rfl, rfl, rfl⟩

/-- Claim C6: the `Res<R>` parameter's `init` does no observable work and
keeps no persistent state, `is_changed` holds iff the store's own changed
flag for `R` is set at the time of the call, and `get` returns a read-only
view of the resource. -/
theorem res_param_spec (w : DWorld) (s : Unit) :
    ResParam.init w = ((), w) ∧
    (ResParam.is_changed w s = true ↔ w.resChanged = true) ∧
    ResParam.get w s = w.resValue :=
  ⟨rfl, Iff.rfl, rfl⟩

/-- Claim C7: the two-member tuple parameter's `get` materializes both
member views from the one same store handle (the aliased raw pointer hands
the same world to each member), pairing `T1::get` and `T2::get` and
threading each member its own persistent state from the tuple state. -/
theorem tuple_get_same_store_instant (p1 : ParamOps W σ1 V1)
    (p2 : ParamOps W σ2 V2) (w : W) (s : σ1 × σ2) :
    tupleGet p1 p2 w s =
      (((p1.getImpl w s.1).1, (p2.getImpl w s.2).1),
       ((p1.getImpl w s.1).2, (p2.getImpl w s.2).2)) :=
  rfl

/-- Claim C8: the query-shaped parameter `Query<D, F>` delegates one-to-one
to the accessor capability: its `init`, `is_changed` and `get` each equal
the corresponding `ReactiveQueryData` operation of `D` with filter `F`
(and its `State` associated type is literally the accessor's state type,
which is why both sides share `σ` here). -/
theorem query_param_delegates (d : ParamOps W σ V) (w : W) (s : σ) :
    (queryParam d).initImpl w = d.initImpl w ∧
    (queryParam d).isChangedImpl w s = d.isChangedImpl w s ∧
    (queryParam d).getImpl w s = d.getImpl w s :=
  ⟨rfl, rfl, rfl⟩

/-- Claim C1 counterexample: the tuple `is_changed` is Rust `||`, which
short-circuits. With a first member that reports changed and a second
member that counts executions of its own check in its state: the composite
call leaves the second member's counter at `0`, although one execution of
the second member's check would have advanced it to `1` — so the second
member's internal change query does NOT run on every composite call. -/
theorem tuple_is_changed_skips_second_cex :
    (tupleIsChanged alwaysChangedParam countChecksParam () ((), 0)).2.2 = 0 ∧
    (countChecksParam.isChangedImpl () 0).2 = 1 :=
  ⟨rfl, rfl⟩

/-- Claim C1 (amended): the tuple `is_changed` returns the logical OR of
the two members' check results, but evaluates them with Rust's
short-circuiting `||`: the first member's check always executes (its state
is always updated), while the second member's check executes only when the
first reported no change — when the first member reports a change, the
second member's state is returned untouched. -/
theorem tuple_is_changed_or_with_shortcircuit (p1 : ParamOps W σ1 V1)
    (p2 : ParamOps W σ2 V2) (w : W) (s : σ1 × σ2) :
    tupleIsChanged p1 p2 w s =
      ((p1.isChangedImpl w s.1).1 || (p2.isChangedImpl w s.2).1,
       ((p1.isChangedImpl w s.1).2,
        if (p1.isChangedImpl w s.1).1 then s.2
        else (p2.isChangedImpl w s.2).2)) := by
  by_cases h : (p1.isChangedImpl w s.1).1 <;>
    simp [tupleIsChanged, h]

/-- Claim C10: a `FunctionReactiveSystem` as constructed by `Reaction::new`
has `state: None`, so `is_changed` and `run` both hit the `unwrap` panic
(modelled `none`); once `init` has run, the state is `Some`, so on any
system that has been initialized the panic branch of `is_changed` and
`run` is unreachable. -/
theorem function_reactive_system_unwrap_panic (pInit : W → σ)
    (pIsCh : W → σ → Bool × σ) (pRun : W → Nat → σ → σ)
    (w w0 : W) (e : Nat) :
    (FunctionReactiveSystem.mk0 pInit pIsCh pRun).isChangedSys w = none ∧
    (FunctionReactiveSystem.mk0 pInit pIsCh pRun).runSys w e = none ∧
    (∀ sys : FunctionReactiveSystem W σ,
      ((sys.initSys w0).state).isSome = true ∧
      ((sys.initSys w0).isChangedSys w).isSome = true ∧
      ((sys.initSys w0).runSys w e).isSome = true) := by
  refine ⟨rfl, rfl, fun sys => ⟨rfl, ?_, ?_⟩⟩ <;>
    simp [FunctionReactiveSystem.initSys, FunctionReactiveSystem.isChangedSys,
      FunctionReactiveSystem.runSys]

/-! ### Helper lemmas about the driver loop -/

theorem react_cons (w : W) (e : Nat) (r : Reaction W σ)
    (tl : List (Nat × Reaction W σ)) :
    react w ((e, r) :: tl) =
      if r.poisoned then none
      else
        let c := r.sys.isChangedImpl w r.state
        if c.1 then
          let ran := r.sys.runImpl w e c.2
          (react ran.2 tl).map (fun p => (ran.1 :: p.1, p.2))
        else
          (react w tl).map (fun p => (c.2 :: p.1, p.2)) :=
  rfl

theorem countSweep_cons (e : Nat) (r : Reaction W σ)
    (tl : List (Nat × Reaction W σ)) :
    countSweep ((e, r) :: tl) =
      (e, ⟨r.poisoned, countCalls r.sys, ⟨r.state, 0, 0, none⟩⟩) ::
        countSweep tl :=
  rfl

/-- Claim C9: when a visited reaction's persistent-state mutex is poisoned,
`lock().unwrap()` panics and the driver's sweep aborts fatally — `react`
produces no result at all; there is no recovery, skip or retry path. -/
theorem react_poisoned_lock_fatal (w : W) (l : List (Nat × Reaction W σ))
    (h : ∃ x ∈ l, x.2.poisoned = true) :
    react w l = none := by
  induction l generalizing w with
  | nil => simp at h
  | cons hd tl ih =>
      obtain ⟨e, r⟩ := hd
      obtain ⟨x, hx, hpx⟩ := h
      rcases List.mem_cons.mp hx with h1 | hmem
      · subst h1
        have hpr : r.poisoned = true := hpx
        simp [react_cons, hpr]
      · by_cases hp : r.poisoned
        · simp [react_cons, hp]
        · have h1 : react ((r.sys.runImpl w e
              (r.sys.isChangedImpl w r.state).2).2) tl = none :=
            ih _ ⟨x, hmem, hpx⟩
          have h2 : react w tl = none := ih _ ⟨x, hmem, hpx⟩
          simp [react_cons, hp, h1, h2]

/-- Claim C9 witness: a concrete sweep containing a poisoned reaction
aborts with no result. -/
theorem react_poisoned_lock_fatal_witness :
    (∃ x ∈ poisonedSweep, x.2.poisoned = true) ∧
    react () poisonedSweep = none :=
  ⟨by decide, react_poisoned_lock_fatal () poisonedSweep (by decide)⟩

theorem countCalls_isChanged (s : SysModel W σ) (w : W) (i : Counted σ) :
    (countCalls s).isChangedImpl w i =
      ((s.isChangedImpl w i.base).1,
       ⟨(s.isChangedImpl w i.base).2, i.checks + 1, i.runs,
        some (s.isChangedImpl w i.base).1⟩) :=
  rfl

theorem countCalls_run (s : SysModel W σ) (w : W) (e : Nat) (i : Counted σ) :
    (countCalls s).runImpl w e i =
      (⟨(s.runImpl w e i.base).1, i.checks, i.runs + 1, i.lastCheck⟩,
       (s.runImpl w e i.base).2) :=
  rfl

/-- Claim C2: in one sweep over reactions whose locks are healthy, the
driver visits every `(Entity, Reaction)` pair (one output state per input
pair, in order), calls each reaction's `is_changed` exactly once against
the store as it then stands, and calls `run` exactly when that one check
returned `true` — never running an unchanged reaction and running a
changed one exactly once. The instrumented sweep (`countSweep`) forwards
to the same behaviours while counting the calls, and its base states and
final world coincide with the plain sweep's. -/
theorem react_checks_once_runs_iff_changed (w : W)
    (l : List (Nat × Reaction W σ))
    (hp : ∀ x ∈ l, x.2.poisoned = false) :
    ∃ outs w2,
      react w (countSweep l) = some (outs, w2) ∧
      outs.length = l.length ∧
      (∀ c ∈ outs, c.checks = 1 ∧
        ((c.lastCheck = some true ∧ c.runs = 1) ∨
         (c.lastCheck = some false ∧ c.runs = 0))) ∧
      react w l = some (outs.map Counted.base, w2) := by
  induction l generalizing w with
  | nil => exact ⟨[], w, rfl, rfl, by simp, rfl⟩
  | cons hd tl ih =>
      obtain ⟨e, r⟩ := hd
      have hpr : r.poisoned = false := hp (e, r) (List.mem_cons_self _ _)
      have hptl : ∀ x ∈ tl, x.2.poisoned = false := fun x hx =>
        hp x (List.mem_cons_of_mem _ hx)
      by_cases hc : (r.sys.isChangedImpl w r.state).1
      · obtain ⟨outs, w2, hro, hlen, hcnt, hbase⟩ :=
          ih ((r.sys.runImpl w e (r.sys.isChangedImpl w r.state).2).2) hptl
        refine ⟨⟨(r.sys.runImpl w e (r.sys.isChangedImpl w r.state).2).1,
            1, 1, some true⟩ :: outs, w2, ?_, ?_, ?_, ?_⟩
        · simp [countSweep_cons, react_cons, countCalls_isChanged,
            countCalls_run, hpr, hc, hro]
        · simpa using hlen
        · intro c hcm
          rcases List.mem_cons.mp hcm with rfl | hcm'
          · exact ⟨rfl, Or.inl ⟨rfl, rfl⟩⟩
          · exact hcnt c hcm'
        · simp [react_cons, hpr, hc, hbase]
      · obtain ⟨outs, w2, hro, hlen, hcnt, hbase⟩ := ih w hptl
        refine ⟨⟨(r.sys.isChangedImpl w r.state).2, 1, 0, some false⟩ :: outs,
            w2, ?_, ?_, ?_, ?_⟩
        · simp [countSweep_cons, react_cons, countCalls_isChanged,
            countCalls_run, hpr, hc, hro]
        · simpa using hlen
        · intro c hcm
          rcases List.mem_cons.mp hcm with rfl | hcm'
          · exact ⟨rfl, Or.inr ⟨rfl, rfl⟩⟩
          · exact hcnt c hcm'
        · simp [react_cons, hpr, hc, hbase]

/-- Claim C2 witness: a concrete two-reaction sweep (one changed, one not)
evaluated through the instrumented driver. -/
theorem react_checks_once_runs_iff_changed_witness :
    (∀ x ∈ demoSweep, x.2.poisoned = false) ∧
    (∃ outs w2,
      react () (countSweep demoSweep) = some (outs, w2) ∧
      outs.length = demoSweep.length ∧
      (∀ c ∈ outs, c.checks = 1 ∧
        ((c.lastCheck = some true ∧ c.runs = 1) ∨
         (c.lastCheck = some false ∧ c.runs = 0))) ∧
      react () demoSweep = some (outs.map Counted.base, w2)) :=
  ⟨by decide, react_checks_once_runs_iff_changed () demoSweep (by decide)⟩

/-! ### Lifecycle invariant lemmas -/

theorem lifeInv_flush {w w' : LifeWorld} (h : LifeInv w)
    (hf : flushCmds w = some w') : LifeInv w' ∧ LifeReady w' := by
  obtain ⟨ha, hfr | hrd⟩ := h
  · obtain ⟨h0, hs, hq⟩ := hfr
    simp [flushCmds, hq, applyCmd, ha, h0] at hf
    subst hf
    exact ⟨⟨rfl, Or.inr ⟨rfl, rfl, rfl⟩⟩, rfl, rfl, rfl⟩
  · obtain ⟨h1, hs, hq⟩ := hrd
    simp [flushCmds, hq] at hf
    subst hf
    exact ⟨⟨ha, Or.inr ⟨h1, hs, rfl⟩⟩, h1, hs, rfl⟩

theorem lifeInv_sweep {w w' : LifeWorld} (h : LifeInv w)
    (hs : sweepOnce w = some w') :
    LifeInv w' ∧ (LifeReady w → LifeReady w') := by
  obtain ⟨ha, hfr | hrd⟩ := h
  · obtain ⟨h0, hst, hq⟩ := hfr
    simp [sweepOnce, ha, hst] at hs
  · obtain ⟨h1, hst, hq⟩ := hrd
    obtain ⟨s, hsome⟩ := Option.isSome_iff_exists.mp hst
    by_cases hch : w.changed
    · simp [sweepOnce, ha, hsome, hch] at hs
      subst hs
      exact ⟨⟨rfl, Or.inr ⟨h1, rfl, hq⟩⟩, fun _ => ⟨h1, rfl, hq⟩⟩
    · simp [sweepOnce, ha, hsome, hch] at hs
      subst hs
      exact ⟨⟨ha, Or.inr ⟨h1, hst, hq⟩⟩, fun hr => hr⟩

theorem lifeInv_execStep {w w' : LifeWorld} {st : LifeStep} (h : LifeInv w)
    (he : execStep w st = some w') :
    LifeInv w' ∧ (LifeReady w → LifeReady w') ∧
      (st = LifeStep.flushStep → LifeReady w') := by
  cases st
  · obtain ⟨h1, h2⟩ := lifeInv_flush h he
    exact ⟨h1, fun _ => h2, fun _ => h2⟩
  · obtain ⟨h1, h2⟩ := lifeInv_sweep h he
    exact ⟨h1, h2, fun hx => by cases hx⟩

theorem lifeInv_execSteps (steps : List LifeStep) :
    ∀ w w' : LifeWorld, LifeInv w → execSteps w steps = some w' →
      LifeInv w' ∧ (LifeReady w → LifeReady w') ∧
        (LifeStep.flushStep ∈ steps → LifeReady w') := by
  induction steps with
  | nil =>
      intro w w' h he
      simp [execSteps] at he
      subst he
      exact ⟨h, fun hr => hr, fun hmem => by simp at hmem⟩
  | cons st rest ih =>
      intro w w' h he
      simp only [execSteps, List.foldlM_cons] at he
      cases h1 : execStep w st with
      | none => simp [h1] at he
      | some w1 =>
          rw [h1] at he
          simp only [Option.bind_eq_bind, Option.some_bind] at he
          have hstep := lifeInv_execStep h h1
          have hrest := ih w1 w' hstep.1 he
          refine ⟨hrest.1, fun hr => hrest.2.1 (hstep.2.1 hr), fun hmem => ?_⟩
          rcases List.mem_cons.mp hmem with hst | hmem'
          · exact hrest.2.1 (hstep.2.2 hst.symm)
          · exact hrest.2.2 hmem'

/-- Claim C3: over an attached lifetime, `init` runs exactly once. The
`on_insert` hook fired by the attachment only queues the init closure
through the deferred-command sink — at attach time `init` has not run and
the state is still absent — and across any interleaving of command flushes
and driver sweeps afterwards, `init` has executed at most once, exactly
once as soon as one flush has occurred (and then never again), and the
persistent state is present precisely when that one `init` has executed:
the Uninitialized-to-Ready transition happens exactly once. -/
theorem reaction_init_exactly_once (c : Bool) (steps : List LifeStep)
    (w2 : LifeWorld)
    (h : execSteps (attach (preAttachWorld c)) steps = some w2) :
    (attach (preAttachWorld c)).initCount = 0 ∧
    (attach (preAttachWorld c)).state = none ∧
    w2.initCount ≤ 1 ∧
    (LifeStep.flushStep ∈ steps → w2.initCount = 1) ∧
    (w2.state.isSome = true ↔ w2.initCount = 1) ∧
    w2.attached = true := by
  have hinv : LifeInv (attach (preAttachWorld c)) :=
    ⟨rfl, Or.inl ⟨rfl, rfl, rfl⟩⟩
  obtain ⟨hinv2, _, hflush⟩ := lifeInv_execSteps steps _ w2 hinv h
  obtain ⟨ha, hfr | hrd⟩ := hinv2
  · obtain ⟨h0, hst, _⟩ := hfr
    refine ⟨rfl, rfl, by omega, fun hmem => ((hflush hmem).1), ?_, ha⟩
    rw [h0, hst]
    simp
  · obtain ⟨h1, hst, _⟩ := hrd
    exact ⟨rfl, rfl, by omega, fun _ => h1, by simp [h1, hst], ha⟩

/-- Claim C3 witness: a concrete schedule — flush, sweep, flush — applied
after the attachment. -/
theorem reaction_init_exactly_once_witness :
    (execSteps (attach (preAttachWorld true)) demoSteps = some demoFinal) ∧
    ((attach (preAttachWorld true)).initCount = 0 ∧
     (attach (preAttachWorld true)).state = none ∧
     demoFinal.initCount ≤ 1 ∧
     (LifeStep.flushStep ∈ demoSteps → demoFinal.initCount = 1) ∧
     (demoFinal.state.isSome = true ↔ demoFinal.initCount = 1) ∧
     demoFinal.attached = true) :=
  ⟨by decide, reaction_init_exactly_once true demoSteps demoFinal (by decide)⟩

end BevyModReaction
